import Mathlib

/-!
Verification development for the kowalski ZTF alert ingestion pipeline
(`alert_watcher_ztf.py`) and its companion API auth middleware
(`middlewares.py`).

The Python code is shallowly embedded: documents and collections become
Lean structures and association lists, MongoDB write operations become
pure state transformers, and the external collaborators the worker calls
(the `utils` helpers, the ML scorer, the cross-match queries, the
aggregation engine) are passed in as function parameters, so every
theorem is quantified over their behaviour.
-/

namespace Kowalski

/-! ### Python dict primitives

Documents in the source are Python dicts / BSON documents.  We model a
dict as an association list with unique keys; `dictGet` is subscript
lookup and `dictSet` is `d[k] = v` (replace in place if the key exists,
else append at the end), matching CPython dict semantics. -/

def dictGet {K V : Type} [DecidableEq K] : List (K × V) → K → Option V
  | [], _ => none
  | kv :: rest, k => if kv.1 = k then some kv.2 else dictGet rest k

def dictSet {K V : Type} [DecidableEq K] : List (K × V) → K → V → List (K × V)
  | [], k, v => [(k, v)]
  | kv :: rest, k, v => if kv.1 = k then (k, v) :: rest else kv :: dictSet rest k v

theorem dictGet_dictSet_self {K V : Type} [DecidableEq K]
    (d : List (K × V)) (k : K) (v : V) : dictGet (dictSet d k v) k = some v := by
  induction d with
  | nil => simp [dictSet, dictGet]
  | cons kv rest ih =>
    by_cases h : kv.1 = k <;> simp [dictSet, dictGet, h, ih]

theorem dictGet_dictSet_ne {K V : Type} [DecidableEq K]
    (d : List (K × V)) (k k' : K) (v : V) (h : k' ≠ k) :
    dictGet (dictSet d k v) k' = dictGet d k' := by
  have hk : ¬ k = k' := fun h' => h h'.symm
  induction d with
  | nil => simp [dictSet, dictGet, hk]
  | cons kv rest ih =>
    by_cases h1 : kv.1 = k
    · subst h1
      simp [dictSet, dictGet, hk]
    · simp [dictSet, dictGet, h1, ih]

theorem dictGet_append_of_some {K V : Type} [DecidableEq K]
    (d d' : List (K × V)) (k : K) (v : V) (h : dictGet d k = some v) :
    dictGet (d ++ d') k = some v := by
  induction d with
  | nil => simp [dictGet] at h
  | cons kv rest ih =>
    by_cases h1 : kv.1 = k <;> simp_all [dictGet]

theorem mem_dictSet {K V : Type} [DecidableEq K]
    (d : List (K × V)) (k : K) (v : V) (q : K × V) (hq : q ∈ dictSet d k v) :
    q ∈ d ∨ q = (k, v) := by
  induction d with
  | nil => simp [dictSet] at hq; exact Or.inr hq
  | cons kv rest ih =>
    by_cases h1 : kv.1 = k
    · simp [dictSet, h1] at hq
      rcases hq with hq | hq
      · exact Or.inr hq
      · exact Or.inl (List.mem_cons_of_mem _ hq)
    · simp [dictSet, h1] at hq
      rcases hq with hq | hq
      · exact Or.inl (by simp [hq])
      · rcases ih hq with h | h
        · exact Or.inl (List.mem_cons_of_mem _ h)
        · exact Or.inr h

theorem dictGet_some_mem {K V : Type} [DecidableEq K]
    (d : List (K × V)) (k : K) (v : V) (h : dictGet d k = some v) : (k, v) ∈ d := by
  induction d with
  | nil => simp [dictGet] at h
  | cons kv rest ih =>
    by_cases h1 : kv.1 = k
    · simp [dictGet, h1] at h
      subst h1; subst h
      exact List.mem_cons_self _ _
    · simp [dictGet, h1] at h
      exact List.mem_cons_of_mem _ (ih h)

def listStartsWith {α : Type} [DecidableEq α] : List α → List α → Bool
  | [], _ => true
  | _ :: _, [] => false
  | a :: as, b :: bs => a = b && listStartsWith as bs

/-- Whether the second list contains the first as a contiguous segment. -/
def listHasSegment {α : Type} [DecidableEq α] : List α → List α → Bool
  | sub, [] => listStartsWith sub []
  | sub, b :: bs => listStartsWith sub (b :: bs) || listHasSegment sub bs

/-- Python's `sub in s` substring test. -/
def pyContains (sub s : String) : Bool :=
  listHasSegment sub.data s.data

/-! ### Data model

Documents carried by the pipeline.  `MVal` is a BSON-style value used
for aggregation pipeline stages and cross-match records; sky coordinates
are modelled as exact rationals. -/

inductive MVal : Type where
  | int : Int → MVal
  | rat : ℚ → MVal
  | str : String → MVal
  | doc : List (String × MVal) → MVal
  | arr : List MVal → MVal

abbrev MDoc := List (String × MVal)

abbrev Stage := MDoc

abbrev Pipeline := List Stage

/-- One prior-observation record from an alert's `prv_candidates` list.
`candid` identifies the prior observation; the remaining payload is an
open field map whose `none` values model JSON `null`s. -/
structure PrvCand where
  candid : Int
  fields : List (String × Option String)
deriving DecidableEq

/-- Strips null-valued keys from a prior candidate, as in
`{kk: vv for kk, vv in prv_candidate.items() if vv is not None}`
(`poll`, lines 420-421). -/
def stripNulls (p : PrvCand) : PrvCand :=
  { p with fields := p.fields.filter (fun kv => kv.2 ≠ none) }

/-- The `candidate` sub-record of an alert, restricted to the fields the
embedded code paths read. -/
structure Candidate where
  ra : ℚ
  dec : ℚ
  programpi : String
  rb : ℚ
  drb : Option ℚ
deriving DecidableEq

/-- A raw decoded alert record.  `prv_candidates` distinguishes an absent
key (`none`) from a present key holding JSON `null` (`some none`) and from
a present list (`some (some l)`). -/
structure Alert where
  candid : Int
  objectId : String
  candidate : Candidate
  prv_candidates : Option (Option (List PrvCand))
deriving DecidableEq

inductive ClassVal : Type where
  | num : ℚ → ClassVal
  | str : String → ClassVal
deriving DecidableEq

/-- The `classifications` mapping attached to a primary document:
model scores plus `<name>_version` strings. -/
abbrev Classifications := List (String × ClassVal)

structure GeoJson where
  type : String
  coordinates : List ℚ
deriving DecidableEq

structure Coordinates where
  radec_str : List String
  radec_geojson : GeoJson
  l : ℚ
  b : ℚ
deriving DecidableEq

/-- A primary alert document as built by `alert_mongify` (plus the
`classifications` overwrite done in `poll`).  `prv_candidates` mirrors
the dict key of the same name: `alert_mongify` pops it, leaving `none`. -/
structure AlertDoc where
  candid : Int
  objectId : String
  candidate : Candidate
  classifications : Classifications
  coordinates : Coordinates
  prv_candidates : Option (Option (List PrvCand))
deriving DecidableEq

/-- Cross-match results: catalog name mapped to the list of matched
catalog records. -/
abbrev XMatches := List (String × List MDoc)

/-- Auxiliary document, keyed in its collection by `_id = objectId`. -/
structure AuxDoc where
  cross_matches : XMatches
  prv_candidates : List PrvCand

/-- The two MongoDB collections the worker writes:
`collection_alerts` (primary, one doc per candid) and
`collection_alerts_aux` (keyed by objectId). -/
structure DBState where
  alerts : List AlertDoc
  alerts_aux : List (String × AuxDoc)

/-- External collaborators of the worker: the `utils` helpers imported at
the top of `alert_watcher_ztf.py` (`deg2hms`, `deg2dms`, `radec2lb`), the
ML scorer `alert_filter__ml`, and the two cross-match queries
`alert_filter__xmatch` / `alert_filter__xmatch_clu` (which read foreign
catalog collections).  They are parameters: every theorem holds for any
behaviour of these functions. -/
structure Externals where
  deg2hms : ℚ → String
  deg2dms : ℚ → String
  radec2lb : ℚ → ℚ → ℚ × ℚ
  mlScores : Alert → Classifications
  xmatchCatalogs : AlertDoc → XMatches
  xmatchClu : AlertDoc → XMatches

/-- Embeds `AlertConsumer.alert_mongify` (lines 318-359).  The doc gets
empty `classifications`, sexagesimal strings, the GeoJSON point
`[ra - 180, dec]`, and galactic `(l, b)`; then
`deepcopy(doc['prv_candidates'])` is read — a `KeyError` if the key is
absent — the key is popped from the doc, and a `null` value is replaced
by the empty list. -/
def alert_mongify (E : Externals) (alert : Alert) :
    Except String (AlertDoc × List PrvCand) :=
  let _ra := alert.candidate.ra
  let _dec := alert.candidate.dec
  let lb := E.radec2lb _ra _dec
  let coords : Coordinates :=
    { radec_str := [E.deg2hms _ra, E.deg2dms _dec]
      radec_geojson := { type := "Point", coordinates := [_ra - 180, _dec] }
      l := lb.1
      b := lb.2 }
  match alert.prv_candidates with
  | none => .error "KeyError: prv_candidates"
  | some pv =>
    .ok ({ candid := alert.candid
           objectId := alert.objectId
           candidate := alert.candidate
           classifications := []
           coordinates := coords
           prv_candidates := none }, pv.getD [])

theorem alert_mongify_candid (E : Externals) (a : Alert) (d : AlertDoc)
    (p : List PrvCand) (h : alert_mongify E a = .ok (d, p)) : d.candid = a.candid := by
  cases hpv : a.prv_candidates <;> simp [alert_mongify, hpv] at h
  obtain ⟨h1, _⟩ := h
  exact (congrArg AlertDoc.candid h1).symm

theorem alert_mongify_prv (E : Externals) (a : Alert) (d : AlertDoc)
    (p : List PrvCand) (h : alert_mongify E a = .ok (d, p)) :
    p = (a.prv_candidates.getD none).getD [] := by
  cases hpv : a.prv_candidates <;> simp [alert_mongify, hpv] at h ⊢
  exact h.2.symm

/-! ### Ingestion: the per-record body of `AlertConsumer.poll`

The MongoDB operations become pure state transformers on `DBState`:
`insert_one` appends, `count_documents(..., limit=1) == 0` is a
membership test, and `update_one` with `$addToSet: {prv_candidates:
{$each: ...}}` appends each new element not already present by value. -/

/-- MongoDB `$addToSet` with `$each`: each element of `news` is appended
to the array unless an equal element is already present. -/
def addToSet (xs news : List PrvCand) : List PrvCand :=
  news.foldl (fun acc p => if p ∈ acc then acc else acc ++ [p]) xs

/-- Python `{**a, **b}`: keys of `a` in order (values overridden by `b`
where shared), then the new keys of `b`. -/
def pyDictMerge (a b : XMatches) : XMatches :=
  a.map (fun kv =>
    match dictGet b kv.1 with
    | some v => (kv.1, v)
    | none => kv)
  ++ b.filter (fun kv => !(a.any (fun kv' => kv'.1 = kv.1)))

/-- The dedupe check of `poll` line 392:
`count_documents({'candid': candid}, limit=1)` is nonzero. -/
def candidInDb (s : DBState) (c : Int) : Bool :=
  s.alerts.any (fun d => d.candid == c)

/-- One iteration of the record loop of `AlertConsumer.poll`
(lines 384-444), restricted to its database effects: dedupe by `candid`;
`alert_mongify`; overwrite `classifications` with the ML scores; insert
the primary document; strip nulls from the prior candidates; then either
insert a fresh aux document (with both cross-matches merged) or
`$addToSet`-append into the existing one.  `.error ()` models an
exception escaping to the per-message `try`, which happens before any
write.  (File dumps and SkyPortal posts touch no collection.) -/
def processRecordE (E : Externals) (s : DBState) (r : Alert) :
    Except Unit DBState :=
  if candidInDb s r.candid then .ok s
  else
    match alert_mongify E r with
    | .error _ => .error ()
    | .ok (doc0, prv0) =>
      let doc := { doc0 with classifications := E.mlScores r }
      let alerts' := s.alerts ++ [doc]
      let prv := prv0.map stripNulls
      let aux' :=
        match dictGet s.alerts_aux r.objectId with
        | none =>
          let xm := pyDictMerge (E.xmatchCatalogs doc) (E.xmatchClu doc)
          s.alerts_aux ++ [(r.objectId, { cross_matches := xm, prv_candidates := prv })]
        | some d =>
          dictSet s.alerts_aux r.objectId
            { d with prv_candidates := addToSet d.prv_candidates prv }
      .ok { alerts := alerts', alerts_aux := aux' }

/-- Processing of one decoded Kafka message: `poll` iterates over the
records of the message inside a single `try`, so an exception raised
while handling one record abandons the remaining records of that
message. -/
def processMessage (E : Externals) (s : DBState) : List Alert → DBState
  | [] => s
  | r :: rs =>
    match processRecordE E s r with
    | .error _ => s
    | .ok s' => processMessage E s' rs

theorem candidInDb_mono (E : Externals) (s s' : DBState) (r : Alert) (c : Int)
    (h : processRecordE E s r = .ok s') (hc : candidInDb s c = true) :
    candidInDb s' c = true := by
  unfold processRecordE at h
  by_cases hdup : candidInDb s r.candid
  · simp [hdup] at h
    exact h ▸ hc
  · simp [hdup] at h
    cases hm : alert_mongify E r with
    | error e => simp [hm] at h
    | ok dp =>
      simp [hm] at h
      cases h
      simp only [candidInDb, List.any_append] at hc ⊢
      simp [hc]

theorem candidInDb_after (E : Externals) (s s' : DBState) (r : Alert)
    (h : processRecordE E s r = .ok s') : candidInDb s' r.candid = true := by
  unfold processRecordE at h
  by_cases hdup : candidInDb s r.candid
  · simp [hdup] at h
    exact h ▸ hdup
  · simp [hdup] at h
    cases hm : alert_mongify E r with
    | error e => simp [hm] at h
    | ok dp =>
      simp [hm] at h
      cases h
      have hcand : dp.1.candid = r.candid := alert_mongify_candid E r dp.1 dp.2 hm
      simp [candidInDb, List.any_append, hcand]

theorem processRecordE_of_present (E : Externals) (s : DBState) (r : Alert)
    (h : candidInDb s r.candid = true) : processRecordE E s r = .ok s := by
  simp [processRecordE, h]

theorem candidInDb_message_mono (E : Externals) (rs : List Alert) (s : DBState)
    (c : Int) (hc : candidInDb s c = true) :
    candidInDb (processMessage E s rs) c = true := by
  induction rs generalizing s with
  | nil => exact hc
  | cons r rest ih =>
    unfold processMessage
    cases hpr : processRecordE E s r with
    | error e => exact hc
    | ok s' => exact ih s' (candidInDb_mono E s s' r c hpr hc)

/-- C1: Re-processing the same broker message a second time yields no
additional documents in the primary or auxiliary collections and no
duplicated `prv_candidates` entries: every record of the message is
skipped by the `candid` dedupe check (or deterministically raises before
any write), so the second pass is the identity on the database state. -/
theorem processMessage_cons (E : Externals) (s : DBState) (r : Alert) (rs : List Alert) :
    processMessage E s (r :: rs) =
      match processRecordE E s r with
      | .error _ => s
      | .ok s' => processMessage E s' rs := rfl

theorem reprocess_message_idempotent (E : Externals) (s : DBState) (rs : List Alert) :
    processMessage E (processMessage E s rs) rs = processMessage E s rs := by
  induction rs generalizing s with
  | nil => rfl
  | cons r rest ih =>
    cases hpr : processRecordE E s r with
    | error e =>
      simp only [processMessage_cons, hpr]
    | ok s' =>
      simp only [processMessage_cons, hpr]
      have hafter : candidInDb (processMessage E s' rest) r.candid = true :=
        candidInDb_message_mono E rest s' r.candid (candidInDb_after E s s' r hpr)
      simp only [processRecordE_of_present E (processMessage E s' rest) r hafter]
      exact ih s'

/-! ### C2: evolution of an aux document's `prv_candidates` -/

theorem addToSet_extends (news xs : List PrvCand) :
    ∃ ys, addToSet xs news = xs ++ ys := by
  induction news generalizing xs with
  | nil => exact ⟨[], by simp [addToSet]⟩
  | cons p rest ih =>
    show ∃ ys, addToSet (if p ∈ xs then xs else xs ++ [p]) rest = xs ++ ys
    by_cases hp : p ∈ xs
    · simp only [hp, if_true]
      exact ih xs
    · simp only [hp, if_false]
      obtain ⟨ys, hys⟩ := ih (xs ++ [p])
      exact ⟨[p] ++ ys, by simp [hys]⟩

theorem addToSet_nodup (news xs : List PrvCand) (h : xs.Nodup) :
    (addToSet xs news).Nodup := by
  induction news generalizing xs with
  | nil => exact h
  | cons p rest ih =>
    show (addToSet (if p ∈ xs then xs else xs ++ [p]) rest).Nodup
    by_cases hp : p ∈ xs
    · simp only [hp, if_true]
      exact ih xs h
    · simp only [hp, if_false]
      refine ih (xs ++ [p]) ?_
      simp [List.nodup_append, h, hp]

/-- The invariant of the aux collection: every stored `prv_candidates`
array is duplicate-free as a list of full records. -/
def AuxPrvNodup (s : DBState) : Prop :=
  ∀ kv ∈ s.alerts_aux, (kv.2 : AuxDoc).prv_candidates.Nodup

/-- The null-stripped prior candidates a record contributes, matching
lines 419-421 of `poll` on the output of `alert_mongify`. -/
def strippedPrv (r : Alert) : List PrvCand :=
  ((r.prv_candidates.getD none).getD []).map stripNulls

/-- C2 (amended): along one successful ingestion step, every existing aux
document's `prv_candidates` array is only ever extended at the tail
(never shrunk), and duplicate-freeness of the stored arrays — by full
record value, not by `candid` — is preserved whenever the incoming
stripped list is itself duplicate-free. -/
theorem prv_append_only_and_value_nodup (E : Externals) (s s' : DBState) (r : Alert)
    (h : processRecordE E s r = .ok s') :
    (∀ oid d, dictGet s.alerts_aux oid = some d →
      ∃ ext, dictGet s'.alerts_aux oid =
        some { cross_matches := d.cross_matches
               prv_candidates := d.prv_candidates ++ ext })
    ∧ (AuxPrvNodup s → (strippedPrv r).Nodup → AuxPrvNodup s') := by
  unfold processRecordE at h
  by_cases hdup : candidInDb s r.candid
  · simp [hdup] at h
    subst h
    constructor
    · intro oid d hd
      exact ⟨[], by simpa using hd⟩
    · intro hinv _
      exact hinv
  · simp [hdup] at h
    cases hm : alert_mongify E r with
    | error e => simp [hm] at h
    | ok dp =>
      simp [hm] at h
      have hprv : dp.2.map stripNulls = strippedPrv r := by
        rw [alert_mongify_prv E r dp.1 dp.2 hm]
        rfl
      cases haux : dictGet s.alerts_aux r.objectId with
      | none =>
        rw [haux] at h
        subst h
        constructor
        · intro oid d hd
          exact ⟨[], by simpa using dictGet_append_of_some _ _ _ _ hd⟩
        · intro hinv hr kv hkv
          simp only at hkv
          rcases List.mem_append.1 hkv with hold | hnew
          · exact hinv kv hold
          · simp at hnew
            subst hnew
            simpa [hprv] using hr
      | some e =>
        rw [haux] at h
        subst h
        constructor
        · intro oid d hd
          by_cases hoid : oid = r.objectId
          · subst hoid
            have : d = e := by
              rw [haux] at hd
              exact (Option.some.inj hd).symm
            subst this
            obtain ⟨ys, hys⟩ := addToSet_extends (dp.2.map stripNulls) d.prv_candidates
            refine ⟨ys, ?_⟩
            simp only [dictGet_dictSet_self, hys]
          · refine ⟨[], ?_⟩
            rw [dictGet_dictSet_ne _ _ _ _ hoid]
            simpa using hd
        · intro hinv hr kv hkv
          simp only at hkv
          rcases mem_dictSet _ _ _ _ hkv with hold | hnew
          · exact hinv kv hold
          · subst hnew
            have he : e.prv_candidates.Nodup :=
              hinv (r.objectId, e) (dictGet_some_mem _ _ _ haux)
            exact addToSet_nodup _ _ he

/-! ### The TESS dump branch of `poll` (lines 446-475) -/

/-- A value of the projected aux document returned by
`find({'_id': objectId}, {'cross_matches': 1}, limit=1)`: its top-level
keys are `_id` (a string) and `cross_matches`. -/
inductive ProjVal : Type where
  | str : String → ProjVal
  | xm : XMatches → ProjVal

/-- Embeds lines 452-460: fetch the projected aux document, apply
`xmatches.pop('CLU_20190625', None)` — note the `pop` acts on the
projected wrapper document, whose keys are `_id` and `cross_matches` —
then read `xmatches['cross_matches']`. -/
def tessFetchCrossMatches (objectId : String) (auxdoc : AuxDoc) : XMatches :=
  let xmatches : List (String × ProjVal) :=
    [("_id", ProjVal.str objectId), ("cross_matches", ProjVal.xm auxdoc.cross_matches)]
  let xmatches := xmatches.filter (fun kv => kv.1 ≠ "CLU_20190625")
  match dictGet xmatches "cross_matches" with
  | some (ProjVal.xm cm) => cm
  | _ => []

/-- The path `os.path.join(path_tess, datestr)` joined with
`f"{candid}.json"`. -/
def tessJsonPath (path_tess datestr : String) (candid : Int) : String :=
  path_tess ++ "/" ++ datestr ++ "/" ++ toString candid ++ ".json"

/-- The JSON file written for a TESS-program alert: path and the enriched
content (`prv_candidates` re-attached, `cross_matches` attached). -/
structure TessOutput where
  path : String
  cross_matches : XMatches
  prv_candidates : List PrvCand

/-- Embeds the guard and dump of lines 446-471: if
`'TESS' in alert['candidate']['programpi']`, enrich the alert with the
fetched cross-matches and its stripped `prv_candidates`; the file is
written only when `save_packets` is true. -/
def tessDump (path_tess datestr : String) (save_packets : Bool)
    (doc : AlertDoc) (prv : List PrvCand) (auxdoc : AuxDoc) : Option TessOutput :=
  if pyContains "TESS" doc.candidate.programpi then
    let cm := tessFetchCrossMatches doc.objectId auxdoc
    if save_packets then
      some { path := tessJsonPath path_tess datestr doc.candid
             cross_matches := cm
             prv_candidates := prv }
    else none
  else none

/-! ### User-defined filter evaluation (`alert_filter__user_defined`,
lines 848-878) -/

/-- A loaded filter template, after the upstream pipeline has been
prepended: its `_id` and its aggregation pipeline. -/
structure FilterTemplate where
  fid : Nat
  pipeline : Pipeline

/-- Embeds `_filter['pipeline'][0]["$match"]["candid"] = alert['candid']`
(line 864).  An empty pipeline (`IndexError`), a first stage without a
`$match` key (`KeyError`) or a non-document `$match` value (`TypeError`)
raise inside the per-filter `try` and are modelled as `none`. -/
def rebindCandid (p : Pipeline) (candid : Int) : Option Pipeline :=
  match p with
  | [] => none
  | st :: rest =>
    match dictGet st "$match" with
    | some (MVal.doc m) =>
      some (dictSet st "$match" (MVal.doc (dictSet m "candid" (MVal.int candid))) :: rest)
    | _ => none

/-- One iteration of the filter loop: rebind the candid, run the
aggregation (`aggregate` is the external query engine; `.error ()` is an
execution error or a `maxTimeMS` timeout), and on a non-empty result
record the first element under the filter's `_id`.  Any failure leaves
the accumulator untouched and moves on (`except ... continue`). -/
def userFilterStep (aggregate : Pipeline → Except Unit (List MDoc)) (candid : Int)
    (passed : List (Nat × MDoc)) (ft : FilterTemplate) : List (Nat × MDoc) :=
  match rebindCandid ft.pipeline candid with
  | none => passed
  | some p =>
    match aggregate p with
    | .error _ => passed
    | .ok [] => passed
    | .ok (d :: _) => dictSet passed ft.fid d

/-- Embeds `alert_filter__user_defined`: fold the per-filter step over
the loaded templates, starting from the empty dict. -/
def alert_filter__user_defined (aggregate : Pipeline → Except Unit (List MDoc))
    (filter_templates : List FilterTemplate) (candid : Int) : List (Nat × MDoc) :=
  filter_templates.foldl (userFilterStep aggregate candid) []

/-- What a single filter contributes on its own: `some` of the first
aggregation result if rebinding succeeds and the aggregation returns a
non-empty list without raising, `none` otherwise. -/
def filterOutcome (aggregate : Pipeline → Except Unit (List MDoc)) (candid : Int)
    (ft : FilterTemplate) : Option MDoc :=
  match rebindCandid ft.pipeline candid with
  | none => none
  | some p =>
    match aggregate p with
    | .error _ => none
    | .ok [] => none
    | .ok (d :: _) => some d

theorem userFilterStep_eq (aggregate : Pipeline → Except Unit (List MDoc))
    (candid : Int) (passed : List (Nat × MDoc)) (ft : FilterTemplate) :
    userFilterStep aggregate candid passed ft =
      match filterOutcome aggregate candid ft with
      | none => passed
      | some d => dictSet passed ft.fid d := by
  rcases hr : rebindCandid ft.pipeline candid with _ | p
  · simp only [userFilterStep, filterOutcome, hr]
  · simp only [userFilterStep, filterOutcome, hr]
    rcases ha : aggregate p with e | l
    · rfl
    · cases l <;> rfl

theorem foldl_userFilterStep_not_mem (aggregate : Pipeline → Except Unit (List MDoc))
    (candid : Int) (fts : List FilterTemplate) (acc : List (Nat × MDoc)) (k : Nat)
    (hk : k ∉ fts.map FilterTemplate.fid) :
    dictGet (fts.foldl (userFilterStep aggregate candid) acc) k = dictGet acc k := by
  induction fts generalizing acc with
  | nil => rfl
  | cons ft rest ih =>
    simp only [List.map_cons, List.mem_cons, not_or] at hk
    obtain ⟨hk1, hk2⟩ := hk
    rw [List.foldl_cons, ih _ hk2, userFilterStep_eq]
    cases filterOutcome aggregate candid ft with
    | none => rfl
    | some d => exact dictGet_dictSet_ne _ _ _ _ (fun h => hk1 (h ▸ rfl))

theorem foldl_userFilterStep_outcome (aggregate : Pipeline → Except Unit (List MDoc))
    (candid : Int) (fts : List FilterTemplate) (acc : List (Nat × MDoc))
    (ft : FilterTemplate) (hmem : ft ∈ fts)
    (hnodup : (fts.map FilterTemplate.fid).Nodup) :
    dictGet (fts.foldl (userFilterStep aggregate candid) acc) ft.fid =
      (filterOutcome aggregate candid ft).elim (dictGet acc ft.fid) some := by
  induction fts generalizing acc with
  | nil => cases hmem
  | cons ft' rest ih =>
    simp only [List.map_cons, List.nodup_cons] at hnodup
    obtain ⟨h1, h2⟩ := hnodup
    rw [List.foldl_cons]
    rcases List.mem_cons.1 hmem with heq | hrest
    · subst heq
      have hnm : ft.fid ∉ rest.map FilterTemplate.fid := h1
      rw [foldl_userFilterStep_not_mem aggregate candid rest _ _ hnm,
        userFilterStep_eq]
      cases filterOutcome aggregate candid ft with
      | none => rfl
      | some d => simp [dictGet_dictSet_self]
    · have hne : ft'.fid ≠ ft.fid := by
        intro h
        exact h1 (h ▸ List.mem_map_of_mem FilterTemplate.fid hrest)
      rw [ih _ hrest h2, userFilterStep_eq]
      cases filterOutcome aggregate candid ft' with
      | none => rfl
      | some d =>
        rw [dictGet_dictSet_ne _ _ _ _ (fun h => hne h.symm)]

/-- C6: filter isolation.  For any behaviour of the aggregation engine
and any list of active templates with distinct ids, the entry the
evaluator's result holds under a given filter's id is exactly that
filter's own outcome: `none` (no entry) when its rebinding or execution
fails or returns the empty list, and `some` of its first result
otherwise — independent of errors, timeouts, or results of every other
filter. -/
theorem filter_isolation (aggregate : Pipeline → Except Unit (List MDoc))
    (fts : List FilterTemplate) (candid : Int) (ft : FilterTemplate)
    (hmem : ft ∈ fts) (hnodup : (fts.map FilterTemplate.fid).Nodup) :
    dictGet (alert_filter__user_defined aggregate fts candid) ft.fid =
      filterOutcome aggregate candid ft := by
  unfold alert_filter__user_defined
  rw [foldl_userFilterStep_outcome aggregate candid fts [] ft hmem hnodup]
  cases filterOutcome aggregate candid ft <;> rfl

/-! ### Loading of filter templates (`AlertConsumer.__init__`,
lines 224-237) -/

/-- A stored document of the `filters` collection.  (The stored
`pipeline` string is parsed with `loads` at load time; the parsed form is
used directly here.) -/
structure StoredFilter where
  fid : Nat
  catalog : String
  science_program_id : Nat
  created : Int
  pipeline : Pipeline

/-- The `_id` expression of the `$group` stage is the plain string
literal `'science_program_id'` — it lacks the `$` prefix that would make
it a field path — so it is a constant and every matched document is
assigned to this single group. -/
def filterGroupKey (_f : StoredFilter) : String := "science_program_id"

/-- The `$group` accumulator `tmp: {'$last': '$$ROOT'}`: each group keeps
the last document of the group in pipeline order.  (The stage also
computes `created: {'$max': '$created'}`, but that value is never used:
the final `$push` collects only `tmp`.) -/
def groupLastByKey (docs : List StoredFilter) : List (String × StoredFilter) :=
  docs.foldl (fun groups f => dictSet groups (filterGroupKey f) f) []

/-- Embeds the template-loading aggregation
`[{'$match': {'catalog': c}}, {'$group': {'_id': 'science_program_id',
'created': {'$max': '$created'}, 'tmp': {'$last': '$$ROOT'}}},
{'$group': {'_id': None, 'filters': {'$push': '$tmp'}}}]`
followed by the prepend loop
`filter_template['pipeline'] = self.filter_pipeline_upstream + loads(...)`. -/
def loadFilterTemplates (stored : List StoredFilter) (catalog : String)
    (upstream : Pipeline) : List StoredFilter :=
  let matched := stored.filter (fun f => f.catalog == catalog)
  let templates := (groupLastByKey matched).map Prod.snd
  templates.map (fun t => { t with pipeline := upstream ++ t.pipeline })

/-! ### The listener loop and the consumer's error callback
(`listener`, lines 881-938; `AlertConsumer.__init__`, lines 136-153) -/

/-- The exception classes distinguished by the `try/except` chain of the
`listener` loop: `EopError`, `IndexError`, `UnicodeDecodeError`,
`KeyboardInterrupt`, and every other `Exception` (the final handler). -/
inductive ListenerExn : Type where
  | eop
  | indexErr
  | unicodeErr
  | keyboardInterrupt
  | otherExn
deriving DecidableEq

inductive LoopReaction : Type where
  | exitWorker
  | continueLoop
deriving DecidableEq

/-- Embeds the `except` clauses of `listener` (lines 921-938): `EopError`
is logged and exits only when `test` is true; decode problems are logged
and the loop continues; `KeyboardInterrupt` and every other exception
call `sys.exit()`. -/
def listenerReact (test : Bool) : ListenerExn → LoopReaction
  | .eop => if test then .exitWorker else .continueLoop
  | .indexErr => .continueLoop
  | .unicodeErr => .continueLoop
  | .keyboardInterrupt => .exitWorker
  | .otherExn => .exitWorker

/-- The partition bookkeeping held by an `AlertConsumer`:
`num_disconnected_partitions` (line 137) and `num_partitions` counted by
the `on_assign` callback. -/
structure ConsumerPartitions where
  num_disconnected_partitions : Nat
  num_partitions : Nat
deriving DecidableEq

/-- Embeds `error_cb` (lines 140-150): a broker error with code `-195`
(partition disconnect) increments the disconnect counter and the process
exits (`sys.exit()`) exactly when the new count equals the number of
partitions; any other error code is only logged.  Returns the updated
state and whether the worker exits. -/
def error_cb (errCode : Int) (s : ConsumerPartitions) : ConsumerPartitions × Bool :=
  if errCode = -195 then
    let s' : ConsumerPartitions :=
      { s with num_disconnected_partitions := s.num_disconnected_partitions + 1 }
    (s', decide (s'.num_disconnected_partitions = s'.num_partitions))
  else (s, false)

/-- The result of `consumer.poll()` as seen by the top of
`AlertConsumer.poll` (lines 371-384): Python `None`, a message whose
`error()` is truthy, or a decodable message carrying records. -/
inductive KafkaMsg : Type where
  | noMessage
  | errorMsg
  | records : List Alert → KafkaMsg

inductive PollOutcome : Type where
  | attributeError
  | eopRaised
  | processed : List Alert → PollOutcome

/-- Embeds lines 373-384 of `poll`: a `None` message is logged
(`'Caught error: msg is None'`) but control then falls through to
`msg.error()`, which on `None` raises `AttributeError` outside any
`try`; a truthy `msg.error()` raises `EopError`; otherwise the records
are processed. -/
def pollDispatch : KafkaMsg → PollOutcome
  | .noMessage => .attributeError
  | .errorMsg => .eopRaised
  | .records rs => .processed rs

/-- How an escaping `poll` outcome is classified by the `except` chain of
`listener`: an `AttributeError` is neither an `EopError` nor an
`IndexError`/`UnicodeDecodeError`, so it reaches the final generic
handler. -/
def pollExnClass : PollOutcome → Option ListenerExn
  | .attributeError => some .otherExn
  | .eopRaised => some .eop
  | .processed _ => none

/-! ### Auth middleware (`middlewares.py`) -/

/-- Outcome of `jwt.decode` against the process-wide secret and
algorithm: `DecodeError`, `ExpiredSignatureError`, or a payload binding a
`user_id`. -/
inductive DecodeOutcome : Type where
  | decodeFailure
  | expiredSignature
  | payload : String → DecodeOutcome
deriving DecidableEq

/-- The request state the middleware manipulates: the raw
`authorization` header and the `request.user` binding. -/
structure ApiRequest where
  authorization : Option String
  user : Option String
deriving DecidableEq

/-- What serving a request produces: an error `web.json_response`
carrying a status, or the wrapped handler running on the final request
state. -/
inductive HandlerResult : Type where
  | jsonResponse : Nat → String → HandlerResult
  | handled : ApiRequest → HandlerResult
deriving DecidableEq

def splitWordsAux : List Char → List Char → List (List Char)
  | [], acc => if acc = [] then [] else [acc.reverse]
  | c :: cs, acc =>
    if c = ' ' then
      if acc = [] then splitWordsAux cs []
      else acc.reverse :: splitWordsAux cs []
    else splitWordsAux cs (c :: acc)

/-- Python `str.split()` on whitespace, dropping empty pieces. -/
def pySplitWords (s : String) : List String :=
  (splitWordsAux s.data []).map String.mk

/-- Python `str.lower()` restricted to ASCII case mapping. -/
def pyToLower (s : String) : String :=
  String.mk (s.data.map Char.toLower)

/-- Embeds lines 21-22 of `middlewares.py`: when the lowercased header
contains `"bearer"`, the token is `jwt_token.split()[1]` — an
`IndexError` (modelled as `.error ()`) if there is no second word. -/
def stripBearer (jwt_token : String) : Except Unit String :=
  if pyContains "bearer" (pyToLower jwt_token) then
    match pySplitWords jwt_token with
    | _ :: w :: _ => .ok w
    | _ => .error ()
  else .ok jwt_token

/-- Python truthiness of `request.user`: `None` and the empty string are
falsy. -/
def pyTruthyUser : Option String → Bool
  | none => false
  | some s => s ≠ ""

/-- Embeds `auth_middleware`: reset `request.user`, read the
`authorization` header; with no header run the handler directly; with a
header strip an optional bearer prefix, decode, answer 400 on
`DecodeError`/`ExpiredSignatureError`, otherwise bind `user_id` and run
the handler.  `.error ()` is an uncaught `IndexError` from the bearer
split. -/
def auth_middleware (decode : String → DecodeOutcome)
    (handler : ApiRequest → HandlerResult) (request : ApiRequest) :
    Except Unit HandlerResult :=
  let request := { request with user := none }
  match request.authorization with
  | none => .ok (handler request)
  | some jwt_token =>
    match stripBearer jwt_token with
    | .error _ => .error ()
    | .ok tok =>
      match decode tok with
      | .decodeFailure => .ok (.jsonResponse 400 "token is invalid")
      | .expiredSignature => .ok (.jsonResponse 400 "token is invalid")
      | .payload uid => .ok (handler { request with user := some uid })

/-- Embeds the `auth_required` decorator: 401 when `request.user` is
falsy, otherwise run the wrapped handler. -/
def auth_required (func : ApiRequest → HandlerResult) (request : ApiRequest) :
    HandlerResult :=
  if pyTruthyUser request.user then func request
  else .jsonResponse 401 "auth required"

/-- Embeds the `admin_required` decorator (default admin name `admin`):
401 when `request.user` is falsy, 403 when it differs from the admin
name, otherwise run the wrapped handler. -/
def admin_required (admin : String) (func : ApiRequest → HandlerResult)
    (request : ApiRequest) : HandlerResult :=
  if pyTruthyUser request.user then
    if request.user ≠ some admin then .jsonResponse 403 "admin rights required"
    else func request
  else .jsonResponse 401 "auth required"

/-! ### Claim theorems for the normalizer, the listener and the
middleware, with concrete instances for witnesses and counterexamples -/

/-- C4: For every alert accepted by `alert_mongify`, the primary
document's `coordinates.radec_geojson` is a GeoJSON `Point` whose first
coordinate is `candidate.ra - 180` and whose second is `candidate.dec`. -/
theorem geojson_point (E : Externals) (a : Alert) (d : AlertDoc) (p : List PrvCand)
    (h : alert_mongify E a = .ok (d, p)) :
    d.coordinates.radec_geojson =
      { type := "Point", coordinates := [a.candidate.ra - 180, a.candidate.dec] } := by
  cases hpv : a.prv_candidates <;> simp [alert_mongify, hpv] at h
  obtain ⟨h1, _⟩ := h
  exact (congrArg (fun x => x.coordinates.radec_geojson) h1).symm

/-- C9 (amended): whenever the `prv_candidates` key is present —
holding `null` or a list — `alert_mongify` returns without raising, pops
the key from the primary document, and returns the prior observations as
a list, empty when the stored value was `null`.  (When the key is absent
the subscript on line 354 raises `KeyError` instead; see the
counterexample.) -/
theorem mongify_prv_present (E : Externals) (a : Alert) (pv : Option (List PrvCand))
    (h : a.prv_candidates = some pv) :
    ∃ d : AlertDoc, alert_mongify E a = .ok (d, pv.getD [])
      ∧ d.prv_candidates = none := by
  refine ⟨{ candid := a.candid
            objectId := a.objectId
            candidate := a.candidate
            classifications := []
            coordinates :=
              { radec_str := [E.deg2hms a.candidate.ra, E.deg2dms a.candidate.dec]
                radec_geojson :=
                  { type := "Point"
                    coordinates := [a.candidate.ra - 180, a.candidate.dec] }
                l := (E.radec2lb a.candidate.ra a.candidate.dec).1
                b := (E.radec2lb a.candidate.ra a.candidate.dec).2 }
            prv_candidates := none }, ?_, rfl⟩
  simp [alert_mongify, h]

/-- C3 (amended): an end-of-partition signal raised by `poll` makes the
worker exit only in test mode and is logged and ignored in production
mode; separately, the consumer's `error_cb` counts partition-disconnect
errors (code -195), and the worker exits exactly when the incremented
count reaches the number of assigned partitions. -/
theorem end_of_partition_behavior (s : ConsumerPartitions) :
    listenerReact true ListenerExn.eop = LoopReaction.exitWorker
    ∧ listenerReact false ListenerExn.eop = LoopReaction.continueLoop
    ∧ (error_cb (-195) s).1.num_disconnected_partitions =
        s.num_disconnected_partitions + 1
    ∧ ((error_cb (-195) s).2 = true ↔
        s.num_disconnected_partitions + 1 = s.num_partitions) := by
  refine ⟨rfl, rfl, rfl, ?_⟩
  simp [error_cb]

/-- C3 counterexample: in production mode (`test = False`) the listener
loop catches `EopError`, logs it and continues; the worker does not exit
on end-of-partition, contrary to the claim that it does in both modes. -/
theorem eop_production_continues :
    listenerReact false ListenerExn.eop = LoopReaction.continueLoop := rfl

/-- C8: evaluating `poll` on a broker poll that returned no message.
After logging, line 376 calls `msg.error()` on `None`, raising an
`AttributeError` that escapes `poll`; the listener's generic `except
Exception` handler catches it and calls `sys.exit()` — in production and
test mode alike the worker terminates instead of continuing. -/
theorem none_message_exits_worker :
    pollExnClass (pollDispatch KafkaMsg.noMessage) = some ListenerExn.otherExn
    ∧ listenerReact false ListenerExn.otherExn = LoopReaction.exitWorker
    ∧ listenerReact true ListenerExn.otherExn = LoopReaction.exitWorker :=
  ⟨rfl, rfl, rfl⟩

/-- C10: status behaviour of the auth middleware composed with the
`auth_required` and `admin_required` gates: no `Authorization` header
gives 401; a header whose JWT fails to decode or is expired gives 400;
an authenticated user whose id differs from the admin name gets 403 from
an admin-gated handler; otherwise the wrapped handler runs with
`user_id` bound on the request. -/
theorem auth_gate_statuses (decode : String → DecodeOutcome) (admin : String)
    (func : ApiRequest → HandlerResult) (raw tok uid : String)
    (hstrip : stripBearer raw = .ok tok) :
    auth_middleware decode (auth_required func) { authorization := none, user := none } =
        .ok (.jsonResponse 401 "auth required")
    ∧ auth_middleware decode (admin_required admin func)
        { authorization := none, user := none } =
        .ok (.jsonResponse 401 "auth required")
    ∧ (decode tok = .decodeFailure →
        auth_middleware decode (auth_required func)
          { authorization := some raw, user := none } =
          .ok (.jsonResponse 400 "token is invalid"))
    ∧ (decode tok = .expiredSignature →
        auth_middleware decode (admin_required admin func)
          { authorization := some raw, user := none } =
          .ok (.jsonResponse 400 "token is invalid"))
    ∧ (decode tok = .payload uid → uid ≠ "" → uid ≠ admin →
        auth_middleware decode (admin_required admin func)
          { authorization := some raw, user := none } =
          .ok (.jsonResponse 403 "admin rights required"))
    ∧ (decode tok = .payload uid → uid ≠ "" →
        auth_middleware decode (auth_required func)
          { authorization := some raw, user := none } =
          .ok (func { authorization := some raw, user := some uid })) := by
  refine ⟨rfl, rfl, ?_, ?_, ?_, ?_⟩
  · intro hdec
    simp [auth_middleware, hstrip, hdec]
  · intro hdec
    simp [auth_middleware, hstrip, hdec]
  · intro hdec huid hadmin
    simp [auth_middleware, hstrip, hdec, admin_required, pyTruthyUser, huid, hadmin]
  · intro hdec huid
    simp [auth_middleware, hstrip, hdec, auth_required, pyTruthyUser, huid]

/-! ### Concrete instances -/

/-- A concrete instantiation of the external collaborators. -/
def E0 : Externals where
  deg2hms := fun _ => ""
  deg2dms := fun _ => ""
  radec2lb := fun _ _ => (0, 0)
  mlScores := fun _ => []
  xmatchCatalogs := fun _ => []
  xmatchClu := fun _ => []

def cand0 : Candidate :=
  { ra := 10, dec := 20, programpi := "ZTF", rb := 9/10, drb := none }

def a4ex : Alert :=
  { candid := 1001, objectId := "ZTF01", candidate := cand0,
    prv_candidates := some (some []) }

def a9ex : Alert :=
  { candid := 1003, objectId := "ZTF02", candidate := cand0,
    prv_candidates := none }

def dFallback : AlertDoc :=
  { candid := 0, objectId := "", candidate := cand0, classifications := []
    coordinates :=
      { radec_str := [], radec_geojson := { type := "", coordinates := [] },
        l := 0, b := 0 }
    prv_candidates := none }

def d4ex : AlertDoc :=
  ((alert_mongify E0 a4ex).toOption.map Prod.fst).getD dFallback

theorem geojson_point_witness :
    d4ex.coordinates.radec_geojson =
      { type := "Point", coordinates := [-170, 20] } := by
  have h : alert_mongify E0 a4ex = .ok (d4ex, []) := rfl
  have h2 := geojson_point E0 a4ex d4ex [] h
  rw [h2]
  simp only [a4ex, cand0, GeoJson.mk.injEq, List.cons.injEq]
  norm_num

/-- C9 counterexample: a record lacking the `prv_candidates` key makes
`alert_mongify` raise (`doc['prv_candidates']`, line 354) instead of
returning the empty list. -/
theorem mongify_missing_prv_raises :
    alert_mongify E0 a9ex = .error "KeyError: prv_candidates" := rfl

theorem mongify_prv_present_witness :
    ∃ d : AlertDoc, alert_mongify E0 a4ex = .ok (d, [])
      ∧ d.prv_candidates = none :=
  mongify_prv_present E0 a4ex (some []) rfl

def p100a : PrvCand := { candid := 100, fields := [("magpsf", some "17.5")] }

def p100b : PrvCand := { candid := 100, fields := [("magpsf", some "18.0")] }

def r2a : Alert :=
  { candid := 1, objectId := "O", candidate := cand0,
    prv_candidates := some (some [p100a]) }

def r2b : Alert :=
  { candid := 2, objectId := "O", candidate := cand0,
    prv_candidates := some (some [p100b]) }

def sEmpty : DBState := { alerts := [], alerts_aux := [] }

def sC2a : DBState := (processRecordE E0 sEmpty r2a).toOption.getD sEmpty

def sC2b : DBState := (processRecordE E0 sC2a r2b).toOption.getD sC2a

/-- The `candid` values stored in the aux document of an object. -/
def prvCandidsAt (s : DBState) (oid : String) : List Int :=
  match dictGet s.alerts_aux oid with
  | some d => d.prv_candidates.map PrvCand.candid
  | none => []

/-- C2 counterexample: ingesting two alerts of the same object whose
prior candidates share `candid = 100` but differ in another field leaves
the aux document with two entries of the same `candid`: `$addToSet`
deduplicates by full record value, not by `candid`. -/
theorem prv_candid_duplicate :
    prvCandidsAt sC2b "O" = [100, 100]
    ∧ decide ((prvCandidsAt sC2b "O").Nodup) = false := ⟨rfl, rfl⟩

def auxw : AuxDoc := { cross_matches := [], prv_candidates := [p100a] }

def s0w : DBState := { alerts := [], alerts_aux := [("O", auxw)] }

def s1w : DBState := (processRecordE E0 s0w r2b).toOption.getD s0w

theorem prv_append_only_witness :
    (∃ ext, dictGet s1w.alerts_aux "O" =
      some { cross_matches := auxw.cross_matches
             prv_candidates := auxw.prv_candidates ++ ext })
    ∧ AuxPrvNodup s1w := by
  have h := prv_append_only_and_value_nodup E0 s0w s1w r2b rfl
  have hnod : AuxPrvNodup s0w := by
    intro kv hkv
    simp only [s0w, List.mem_singleton] at hkv
    subst hkv
    decide
  exact ⟨h.1 "O" auxw rfl, h.2 hnod (by decide)⟩

def ftA : FilterTemplate := { fid := 1, pipeline := [] }

def ftB : FilterTemplate :=
  { fid := 2, pipeline := [[("$match", MVal.doc [("candid", MVal.int 0)])]] }

def fts0 : List FilterTemplate := [ftA, ftB]

def agg0 : Pipeline → Except Unit (List MDoc) :=
  fun _ => .ok [[("objectId", MVal.str "ZTF01")]]

theorem filter_isolation_witness :
    dictGet (alert_filter__user_defined agg0 fts0 7) ftA.fid = filterOutcome agg0 7 ftA
    ∧ dictGet (alert_filter__user_defined agg0 fts0 7) ftB.fid = filterOutcome agg0 7 ftB
    ∧ filterOutcome agg0 7 ftA = none
    ∧ filterOutcome agg0 7 ftB = some [("objectId", MVal.str "ZTF01")] := by
  refine ⟨?_, ?_, rfl, rfl⟩
  · exact filter_isolation agg0 fts0 7 ftA (List.mem_cons_self _ _) (by decide)
  · exact filter_isolation agg0 fts0 7 ftB
      (List.mem_cons_of_mem _ (List.mem_cons_self _ _)) (by decide)

def coords0 : Coordinates :=
  { radec_str := [], radec_geojson := { type := "Point", coordinates := [] },
    l := 0, b := 0 }

def doc5 : AlertDoc :=
  { candid := 2000, objectId := "ZTF01"
    candidate := { cand0 with programpi := "TESS Guest Investigator" }
    classifications := [], coordinates := coords0, prv_candidates := none }

def aux5 : AuxDoc :=
  { cross_matches := [("CLU_20190625", [[("name", MVal.str "PGC2557")]])],
    prv_candidates := [] }

/-- C5: a TESS-program alert with `save_packets` is dumped to
`<path_tess>/<datestr>/<candid>.json`, but the written `cross_matches`
still contains the key `CLU_20190625`: the `pop` on line 458 acts on the
projected wrapper document (keys `_id`, `cross_matches`), never on the
`cross_matches` mapping itself, so the galaxy-catalog entry survives. -/
theorem tess_dump_retains_clu :
    tessDump "/data/tess" "20200101" true doc5 [] aux5 =
      some { path := "/data/tess/20200101/2000.json"
             cross_matches := [("CLU_20190625", [[("name", MVal.str "PGC2557")]])]
             prv_candidates := [] }
    ∧ ((tessFetchCrossMatches "ZTF01" aux5).any
        (fun kv => kv.1 == "CLU_20190625")) = true := ⟨rfl, rfl⟩

def sfA : StoredFilter :=
  { fid := 11, catalog := "ZTF_alerts", science_program_id := 1, created := 10,
    pipeline := [] }

def sfB : StoredFilter :=
  { fid := 22, catalog := "ZTF_alerts", science_program_id := 2, created := 20,
    pipeline := [] }

def sfC : StoredFilter :=
  { fid := 33, catalog := "ZTF_alerts", science_program_id := 5, created := 20,
    pipeline := [] }

def sfD : StoredFilter :=
  { fid := 44, catalog := "ZTF_alerts", science_program_id := 5, created := 10,
    pipeline := [] }

/-- C7: evaluating the template-loading aggregation at two templates with
distinct `science_program_id`s loads a single template, not one per
program id — the `$group` key is the literal string
`'science_program_id'` (missing `$`), collapsing all documents into one
group — and among templates sharing a program id the last-stored one is
kept (`$last`), not the one with the greatest `created`. -/
theorem filter_load_collapses :
    (loadFilterTemplates [sfA, sfB] "ZTF_alerts" []).map StoredFilter.fid = [22]
    ∧ (loadFilterTemplates [sfC, sfD] "ZTF_alerts" []).map StoredFilter.fid = [44]
    ∧ (loadFilterTemplates [sfC, sfD] "ZTF_alerts" []).map StoredFilter.created = [10] :=
  ⟨rfl, rfl, rfl⟩

def decode0 : String → DecodeOutcome := fun t =>
  if t = "alicetok" then .payload "alice"
  else if t = "oldtok" then .expiredSignature
  else .decodeFailure

def func0 : ApiRequest → HandlerResult := fun req => .handled req

theorem auth_gate_statuses_witness :
    auth_middleware decode0 (auth_required func0)
        { authorization := none, user := none } =
      .ok (.jsonResponse 401 "auth required")
    ∧ auth_middleware decode0 (auth_required func0)
        { authorization := some "Bearer badtok", user := none } =
      .ok (.jsonResponse 400 "token is invalid")
    ∧ auth_middleware decode0 (admin_required "admin" func0)
        { authorization := some "Bearer oldtok", user := none } =
      .ok (.jsonResponse 400 "token is invalid")
    ∧ auth_middleware decode0 (admin_required "admin" func0)
        { authorization := some "Bearer alicetok", user := none } =
      .ok (.jsonResponse 403 "admin rights required")
    ∧ auth_middleware decode0 (auth_required func0)
        { authorization := some "Bearer alicetok", user := none } =
      .ok (func0 { authorization := some "Bearer alicetok", user := some "alice" }) := by
  refine ⟨?_, ?_, ?_, ?_, ?_⟩
  · exact (auth_gate_statuses decode0 "admin" func0 "x" "x" "u" rfl).1
  · exact (auth_gate_statuses decode0 "admin" func0 "Bearer badtok" "badtok" "u"
      rfl).2.2.1 rfl
  · exact (auth_gate_statuses decode0 "admin" func0 "Bearer oldtok" "oldtok" "u"
      rfl).2.2.2.1 rfl
  · exact (auth_gate_statuses decode0 "admin" func0 "Bearer alicetok" "alicetok"
      "alice" rfl).2.2.2.2.1 rfl (by decide) (by decide)
  · exact (auth_gate_statuses decode0 "admin" func0 "Bearer alicetok" "alicetok"
      "alice" rfl).2.2.2.2.2 rfl (by decide)

end Kowalski
